import Mathlib

/-!
Shallow embedding of the open-addressing hash map of `src/main.rs`
(`MyHashMap`): a flat slot vector (`bucket`) of `Pair` cells, linear
probing for collisions, and a capacity-doubling rebuild when a probe
cycles all the way around the bucket.

Modelling conventions:
* `usize` is `Nat`; every wrapping operation writes its `% 2 ^ 64`
  explicitly, and `>> 32` is division by `2 ^ 32`.
* `Vec<Pair<K, V>>` is `List (Pair K V)`; `self.bucket[i]` is
  `m.bucket[i]?`, where the `none` branch corresponds to the Rust
  index/remainder panic on a zero-length bucket.
* The unbounded `loop` inside `insert` (which is mutually recursive with
  `increase_capacity`) is made total with a fuel parameter; `none` means
  the fuel ran out or the code panicked.  For every terminating Rust run
  there is a fuel making the model return `some` of the same outcome.
* `remove` panics in Rust when the slot at the home index is unoccupied;
  the panic is modelled as an explicit `RemoveResult` constructor.
-/

set_option maxRecDepth 8192

/-- The `HashIt` trait of `main.rs`: a deterministic map from a key to a
`usize` hash value. -/
class HashIt (K : Type) where
  hash : K → Nat

/-- `Pair<K, V>` of `main.rs`: one slot holding a key, a value and the
`is_occupied` flag. -/
structure Pair (K V : Type) where
  key : K
  value : V
  is_occupied : Bool
deriving DecidableEq, Repr

/-- `MyHashMap<K, V>` of `main.rs`: the bucket vector of slots. -/
structure MyHashMap (K V : Type) where
  bucket : List (Pair K V)
deriving DecidableEq, Repr

/-- `impl HashIt for usize`: Fibonacci hashing.  `self.wrapping_mul(a)`
with `a = 2654435769`, then `>> (64 - 32)`; the wrapping multiply is
`% 2 ^ 64` and the logical right shift is division by `2 ^ 32`. -/
instance : HashIt Nat where
  hash k := k * 2654435769 % 2 ^ 64 / 2 ^ 32

/-- `INITIAL_CAPACITY` of `main.rs`. -/
def INITIAL_CAPACITY : Nat := 15

/-- `Pair::default()` (the struct derives `Default`): default key,
default value, `is_occupied = false`. -/
def defaultPair (K V : Type) [Inhabited K] [Inhabited V] : Pair K V :=
  ⟨default, default, false⟩

/-- `MyHashMap::with_capacity`: `vec![Pair::default(); capacity]`.
Note that the Rust function accepts `0` and builds an empty bucket. -/
def MyHashMap.with_capacity (K V : Type) [Inhabited K] [Inhabited V]
    (capacity : Nat) : MyHashMap K V :=
  ⟨List.replicate capacity (defaultPair K V)⟩

/-- `MyHashMap::new`: `vec![Pair::default(); INITIAL_CAPACITY]`. -/
def MyHashMap.new (K V : Type) [Inhabited K] [Inhabited V] : MyHashMap K V :=
  MyHashMap.with_capacity K V INITIAL_CAPACITY

variable {K V : Type} [DecidableEq K] [Inhabited K] [Inhabited V] [HashIt K]

/-- The body of `MyHashMap::insert`, fuelled.  `probe = none` is the
entry of `insert` (compute the home index, fill it if unoccupied,
otherwise enter the loop with `start = index = home`); `probe =
some (start, index)` is one iteration of the Rust `loop`: step to
`(index + 1) % len`, update on an equal key, fill an unoccupied slot,
and on `start == index` run `increase_capacity` (rebuild into a bucket
of doubled length by re-running `insert` on every pair of the old
bucket, occupied or not) and keep looping in the new bucket. -/
def MyHashMap.insertGo : Nat → MyHashMap K V → K → V → Option (Nat × Nat) →
    Option (MyHashMap K V × Option V)
  | 0, _, _, _, _ => none
  | fuel + 1, m, key, value, none =>
    let index := HashIt.hash key % m.bucket.length
    match m.bucket[index]? with
    | none => none
    | some p =>
      if p.is_occupied = false then
        some (⟨m.bucket.set index ⟨key, value, true⟩⟩, none)
      else
        MyHashMap.insertGo fuel m key value (some (index, index))
  | fuel + 1, m, key, value, some (start, index) =>
    let i := (index + 1) % m.bucket.length
    match m.bucket[i]? with
    | none => none
    | some p =>
      if p.key = key then
        some (⟨m.bucket.set i ⟨p.key, value, p.is_occupied⟩⟩, some p.value)
      else if p.is_occupied = false then
        some (⟨m.bucket.set i ⟨key, value, true⟩⟩, none)
      else if i = start then
        match m.bucket.foldl
            (fun acc q => acc.bind fun mm =>
              (MyHashMap.insertGo fuel mm q.key q.value none).map Prod.fst)
            (some (MyHashMap.with_capacity K V (m.bucket.length * 2))) with
        | none => none
        | some mg => MyHashMap.insertGo fuel mg key value (some (start, i))
      else
        MyHashMap.insertGo fuel m key value (some (start, i))

/-- `MyHashMap::insert`, fuelled. -/
def MyHashMap.insert (fuel : Nat) (m : MyHashMap K V) (key : K) (value : V) :
    Option (MyHashMap K V × Option V) :=
  MyHashMap.insertGo fuel m key value none

/-- `MyHashMap::increase_capacity`: build a fresh map with
`self.bucket.len() * 2` slots and `insert` every pair of the old bucket
into it (the Rust loop iterates over all pairs, not only the occupied
ones).  This is exactly the expression inlined in the growth branch of
`insertGo`. -/
def MyHashMap.increase_capacity (fuel : Nat) (m : MyHashMap K V) :
    Option (MyHashMap K V) :=
  m.bucket.foldl
    (fun acc q => acc.bind fun mm =>
      (MyHashMap.insertGo fuel mm q.key q.value none).map Prod.fst)
    (some (MyHashMap.with_capacity K V (m.bucket.length * 2)))

/-- `MyHashMap::extend`: `self.bucket.reserve_exact(how_much)` only
pre-allocates backing storage; it changes neither `bucket.len()` nor any
slot, so on this model it is the identity. -/
def MyHashMap.extend (m : MyHashMap K V) (how_much : Nat) : MyHashMap K V :=
  m

/-- Outcome of `MyHashMap::remove`.  The Rust signature is
`Option<Pair<K, V>>`, but the function never returns `None`: when the
slot at the home index is unoccupied it executes
`panic!("Given Key does not exist.")`, and on a zero-length bucket the
home-index computation panics with a remainder-by-zero.  Both aborts are
explicit constructors here. -/
inductive RemoveResult (K V : Type) where
  | ok (removed : Pair K V) (table : MyHashMap K V)
  | panicKeyDoesNotExist
  | panicRemainderByZero
deriving DecidableEq, Repr

/-- `MyHashMap::remove`: look only at the home index `hash(key) % len`;
if that slot is occupied (the key stored there is never compared with
`key`), clear it to `Pair::default()` and return the old slot, otherwise
panic. -/
def MyHashMap.remove (m : MyHashMap K V) (key : K) : RemoveResult K V :=
  let index := HashIt.hash key % m.bucket.length
  match m.bucket[index]? with
  | none => RemoveResult.panicRemainderByZero
  | some p =>
    if p.is_occupied then
      RemoveResult.ok p ⟨m.bucket.set index (defaultPair K V)⟩
    else
      RemoveResult.panicKeyDoesNotExist

/-- `MyHashMap::get`: look only at the home index `hash(key) % len`; if
that slot is occupied return its value (the stored key is never compared
with `key`), else `None`.  The `none` of the `[index]?` match is the
Rust remainder-by-zero panic on a zero-length bucket. -/
def MyHashMap.get (m : MyHashMap K V) (key : K) : Option V :=
  let index := HashIt.hash key % m.bucket.length
  match m.bucket[index]? with
  | none => none
  | some p => if p.is_occupied then some p.value else none

/-- Number of occupied slots (the spec's "table occupancy count"). -/
def MyHashMap.occupiedCount (m : MyHashMap K V) : Nat :=
  (m.bucket.filter (fun p => p.is_occupied)).length

/-!
Concrete keys used below (for the `usize` hash):
`hash 0 = 0`, `hash 1 = 0` (products below `2 ^ 32`, so the high
32 bits are zero), `hash 2 = 1`, `hash 3 = 1`, `hash 7 = 4`.
Hence keys `1` and `7` share home index `0` in a 4-slot bucket.
-/

/-- C1 (code bug): the round trip `insert` then `get` fails on the code,
because `get` checks only the home index instead of following the probe
sequence of `insert`.  In a fresh 4-slot table, `insert 1 10` fills slot
0 (home of key 1), `insert 7 70` probes forward to slot 1 (key 7 also
has home 0), and `get 7` then reads slot 0 and answers `10`, not `70`. -/
theorem c1_round_trip_fails_at_probed_key :
    MyHashMap.insert 10 (MyHashMap.with_capacity Nat Nat 4) 1 10 =
      some (⟨[⟨1, 10, true⟩, defaultPair Nat Nat, defaultPair Nat Nat,
              defaultPair Nat Nat]⟩, none) ∧
    MyHashMap.insert 10
        (⟨[⟨1, 10, true⟩, defaultPair Nat Nat, defaultPair Nat Nat,
           defaultPair Nat Nat]⟩ : MyHashMap Nat Nat) 7 70 =
      some (⟨[⟨1, 10, true⟩, ⟨7, 70, true⟩, defaultPair Nat Nat,
              defaultPair Nat Nat]⟩, none) ∧
    MyHashMap.get
        (⟨[⟨1, 10, true⟩, ⟨7, 70, true⟩, defaultPair Nat Nat,
           defaultPair Nat Nat]⟩ : MyHashMap Nat Nat) 7 = some 10 ∧
    MyHashMap.get
        (⟨[⟨1, 10, true⟩, ⟨7, 70, true⟩, defaultPair Nat Nat,
           defaultPair Nat Nat]⟩ : MyHashMap Nat Nat) 7 ≠ some 70 := by
  decide

/-- C2 (code bug): `remove` of an absent key is not a recoverable
`KeyNotFound` result.  On a fresh table (`new`, 15 slots) removing the
never-inserted key 0 hits the `panic!("Given Key does not exist.")`
branch; and on a table holding keys 1 and 7, removing the never-inserted
key 2 (home index 1) "succeeds", clearing slot 1 and handing back the
pair `(7, 70)` that belongs to a different key — the state changes. -/
theorem c2_remove_missing_key_panics :
    MyHashMap.remove (MyHashMap.new Nat Nat) 0 =
      RemoveResult.panicKeyDoesNotExist ∧
    MyHashMap.remove
        (⟨[⟨1, 10, true⟩, ⟨7, 70, true⟩, defaultPair Nat Nat,
           defaultPair Nat Nat]⟩ : MyHashMap Nat Nat) 2 =
      RemoveResult.ok ⟨7, 70, true⟩
        ⟨[⟨1, 10, true⟩, defaultPair Nat Nat, defaultPair Nat Nat,
          defaultPair Nat Nat]⟩ := by
  decide

/-- C3 (code bug): inserting the same key twice is not an update.  The
probe loop starts at `home + 1` and the home-slot branch never compares
keys, so with key 1 resident at its home slot 0, the second
`insert 1 20` stores a second copy of key 1 at slot 1 and returns
`none` instead of `some 10`; `get 1` still answers the old value 10 and
the occupied-slot count grows from 1 to 2. -/
theorem c3_update_inserts_duplicate :
    MyHashMap.insert 10 (MyHashMap.with_capacity Nat Nat 4) 1 10 =
      some (⟨[⟨1, 10, true⟩, defaultPair Nat Nat, defaultPair Nat Nat,
              defaultPair Nat Nat]⟩, none) ∧
    MyHashMap.insert 10
        (⟨[⟨1, 10, true⟩, defaultPair Nat Nat, defaultPair Nat Nat,
           defaultPair Nat Nat]⟩ : MyHashMap Nat Nat) 1 20 =
      some (⟨[⟨1, 10, true⟩, ⟨1, 20, true⟩, defaultPair Nat Nat,
              defaultPair Nat Nat]⟩, none) ∧
    MyHashMap.get
        (⟨[⟨1, 10, true⟩, ⟨1, 20, true⟩, defaultPair Nat Nat,
           defaultPair Nat Nat]⟩ : MyHashMap Nat Nat) 1 = some 10 ∧
    MyHashMap.occupiedCount
        (⟨[⟨1, 10, true⟩, defaultPair Nat Nat, defaultPair Nat Nat,
           defaultPair Nat Nat]⟩ : MyHashMap Nat Nat) = 1 ∧
    MyHashMap.occupiedCount
        (⟨[⟨1, 10, true⟩, ⟨1, 20, true⟩, defaultPair Nat Nat,
           defaultPair Nat Nat]⟩ : MyHashMap Nat Nat) = 2 := by
  decide

/-- C4 (code bug): key uniqueness is violated in a state reachable from
a fresh table by two inserts: after `insert 1 10; insert 1 20` on a
fresh 4-slot table, slots 0 and 1 are both occupied and both hold
key 1. -/
theorem c4_key_uniqueness_violated :
    (MyHashMap.insert 10 (MyHashMap.with_capacity Nat Nat 4) 1 10).bind
        (fun s => MyHashMap.insert 10 s.1 1 20) =
      some (⟨[⟨1, 10, true⟩, ⟨1, 20, true⟩, defaultPair Nat Nat,
              defaultPair Nat Nat]⟩, none) ∧
    (⟨[⟨1, 10, true⟩, ⟨1, 20, true⟩, defaultPair Nat Nat,
       defaultPair Nat Nat]⟩ : MyHashMap Nat Nat).bucket[0]? =
      some ⟨1, 10, true⟩ ∧
    (⟨[⟨1, 10, true⟩, ⟨1, 20, true⟩, defaultPair Nat Nat,
       defaultPair Nat Nat]⟩ : MyHashMap Nat Nat).bucket[1]? =
      some ⟨1, 20, true⟩ := by
  decide

/-- C5 (code bug): removing a present key clears the wrong slot when the
key lives away from its home index.  With key 1 at slot 0 and key 7
(same home index 0) probed forward to slot 1, `remove 7` looks only at
slot 0, clears it, and returns the pair `(1, 10)` instead of `(7, 70)`;
key 7's slot is untouched. -/
theorem c5_remove_clears_wrong_slot :
    (MyHashMap.insert 10 (MyHashMap.with_capacity Nat Nat 4) 1 10).bind
        (fun s => MyHashMap.insert 10 s.1 7 70) =
      some (⟨[⟨1, 10, true⟩, ⟨7, 70, true⟩, defaultPair Nat Nat,
              defaultPair Nat Nat]⟩, none) ∧
    MyHashMap.remove
        (⟨[⟨1, 10, true⟩, ⟨7, 70, true⟩, defaultPair Nat Nat,
           defaultPair Nat Nat]⟩ : MyHashMap Nat Nat) 7 =
      RemoveResult.ok ⟨1, 10, true⟩
        ⟨[defaultPair Nat Nat, ⟨7, 70, true⟩, defaultPair Nat Nat,
          defaultPair Nat Nat]⟩ ∧
    (⟨1, 10, true⟩ : Pair Nat Nat).key ≠ 7 := by
  decide

/-- C6 (code bug): `with_capacity 0` raises no error at all: it returns
a table whose slot vector is empty, so `capacity > 0` fails and every
subsequent operation dies on the remainder-by-zero (`insert` has no
non-panicking outcome — modelled as `none` — and `remove` hits the
remainder panic). -/
theorem c6_with_capacity_zero_no_error :
    MyHashMap.with_capacity Nat Nat 0 = ⟨[]⟩ ∧
    (MyHashMap.with_capacity Nat Nat 0).bucket.length = 0 ∧
    MyHashMap.insert 5 (MyHashMap.with_capacity Nat Nat 0) 1 2 = none ∧
    MyHashMap.get (MyHashMap.with_capacity Nat Nat 0) 1 = none ∧
    MyHashMap.remove (MyHashMap.with_capacity Nat Nat 0) 1 =
      RemoveResult.panicRemainderByZero := by
  decide

/-- C7 (code bug): growth itself doubles the bucket and re-inserts the
occupied pairs, but the claimed consequence — every key retrievable by
`get` afterwards — fails.  Starting from capacity 1: `insert 1 10`
fills the table; `insert 2 20` forces growth to 2; `insert 3 30` forces
growth to 4 and then places key 3 (home index 1, occupied by key 2) at
the probed-forward slot 2, where the home-only `get 3` never looks:
`get 3` answers `some 20`, not `some 30`. -/
theorem c7_growth_leaves_key_unretrievable :
    MyHashMap.insert 20 (MyHashMap.with_capacity Nat Nat 1) 1 10 =
      some (⟨[⟨1, 10, true⟩]⟩, none) ∧
    MyHashMap.insert 20 (⟨[⟨1, 10, true⟩]⟩ : MyHashMap Nat Nat) 2 20 =
      some (⟨[⟨1, 10, true⟩, ⟨2, 20, true⟩]⟩, none) ∧
    MyHashMap.insert 20
        (⟨[⟨1, 10, true⟩, ⟨2, 20, true⟩]⟩ : MyHashMap Nat Nat) 3 30 =
      some (⟨[⟨1, 10, true⟩, ⟨2, 20, true⟩, ⟨3, 30, true⟩,
              defaultPair Nat Nat]⟩, none) ∧
    MyHashMap.get
        (⟨[⟨1, 10, true⟩, ⟨2, 20, true⟩, ⟨3, 30, true⟩,
           defaultPair Nat Nat]⟩ : MyHashMap Nat Nat) 1 = some 10 ∧
    MyHashMap.get
        (⟨[⟨1, 10, true⟩, ⟨2, 20, true⟩, ⟨3, 30, true⟩,
           defaultPair Nat Nat]⟩ : MyHashMap Nat Nat) 2 = some 20 ∧
    MyHashMap.get
        (⟨[⟨1, 10, true⟩, ⟨2, 20, true⟩, ⟨3, 30, true⟩,
           defaultPair Nat Nat]⟩ : MyHashMap Nat Nat) 3 = some 20 ∧
    MyHashMap.get
        (⟨[⟨1, 10, true⟩, ⟨2, 20, true⟩, ⟨3, 30, true⟩,
           defaultPair Nat Nat]⟩ : MyHashMap Nat Nat) 3 ≠ some 30 := by
  decide

/-- C8 counterexample: `hash 0` and `hash 1` do NOT differ — the
products `0` and `2654435769` are both below `2 ^ 32`, so shifting the
64-bit product right by 32 bits sends both keys to 0. -/
theorem c8_hash_zero_one_collide :
    HashIt.hash (0 : Nat) = HashIt.hash (1 : Nat) ∧
    HashIt.hash (0 : Nat) = 0 ∧ HashIt.hash (1 : Nat) = 0 := by
  decide

/-- C8 amended: `hash 0` and `hash 1` are equal (both 0), and for every
capacity `c > 0` both `hash 0 % c` and `hash 1 % c` are defined,
non-negative (they are naturals) and below `c`. -/
theorem c8_amended_hash_range :
    HashIt.hash (0 : Nat) = 0 ∧ HashIt.hash (1 : Nat) = 0 ∧
    ∀ c : Nat, 0 < c →
      HashIt.hash (0 : Nat) % c < c ∧ HashIt.hash (1 : Nat) % c < c := by
  exact ⟨by decide, by decide,
    fun c hc => ⟨Nat.mod_lt _ hc, Nat.mod_lt _ hc⟩⟩

/-- Witness for C8: the amended statement applied at capacity 7. -/
theorem c8_amended_hash_range_witness :
    HashIt.hash (0 : Nat) % 7 < 7 ∧ HashIt.hash (1 : Nat) % 7 < 7 :=
  c8_amended_hash_range.2.2 7 (by decide)

/-- C10: unoccupied slots hold `K::default()` as their key and the probe
loop compares keys before occupancy.  So if the home slot of the key
`default` is occupied by a different key while the next probed slot is
an empty default slot, `insert default v` takes the equal-key update
branch at that empty slot: it overwrites only the value (the slot stays
unoccupied), returns `some V::default()` although `default` was never
inserted, and any `get` whose home index is that slot still answers
`none`. -/
theorem c10_default_key_ghost_update :
    ∀ (K V : Type) [DecidableEq K] [Inhabited K] [Inhabited V] [HashIt K]
      (fuel : Nat) (m : MyHashMap K V) (v : V) (ph : Pair K V)
      (home nxt : Nat),
      home = HashIt.hash (default : K) % m.bucket.length →
      nxt = (home + 1) % m.bucket.length →
      m.bucket[home]? = some ph →
      ph.is_occupied = true →
      ph.key ≠ (default : K) →
      m.bucket[nxt]? = some (defaultPair K V) →
      2 ≤ fuel →
      MyHashMap.insert fuel m (default : K) v =
        some (⟨m.bucket.set nxt ⟨default, v, false⟩⟩, some (default : V)) ∧
      ∀ k2 : K, HashIt.hash k2 % m.bucket.length = nxt →
        MyHashMap.get ⟨m.bucket.set nxt ⟨default, v, false⟩⟩ k2 = none := by
  intro K V _ _ _ _ fuel m v ph home nxt hhome hnxt hph hocc hkey hnx hfuel
  obtain ⟨f, rfl⟩ : ∃ f, fuel = f + 2 := ⟨fuel - 2, by omega⟩
  have hlt : nxt < m.bucket.length := (List.getElem?_eq_some_iff.mp hnx).1
  constructor
  · show MyHashMap.insertGo (f + 1 + 1) m default v none = _
    rw [MyHashMap.insertGo]
    simp only [← hhome, hph, hocc]
    rw [MyHashMap.insertGo]
    simp only [← hnxt, hnx, defaultPair]
    simp
  · intro k2 hk2
    simp only [MyHashMap.get, List.length_set, hk2,
      List.getElem?_set_self hlt]
    simp

/-- Witness for C10: key `0 = usize::default()` in a 4-slot table whose
home slot 0 is occupied by key 1 and whose slot 1 is an empty default
slot.  `insert 0 99` writes 99 into slot 1 without occupying it and
returns `some 0`; key 2 (home index 1) then gets `none`. -/
theorem c10_default_key_ghost_update_witness :
    MyHashMap.insert 2
        (⟨[⟨1, 10, true⟩, defaultPair Nat Nat, defaultPair Nat Nat,
           defaultPair Nat Nat]⟩ : MyHashMap Nat Nat) 0 99 =
      some (⟨[⟨1, 10, true⟩, ⟨0, 99, false⟩, defaultPair Nat Nat,
              defaultPair Nat Nat]⟩, some 0) ∧
    MyHashMap.get
        (⟨[⟨1, 10, true⟩, ⟨0, 99, false⟩, defaultPair Nat Nat,
           defaultPair Nat Nat]⟩ : MyHashMap Nat Nat) 2 = none := by
  have h := c10_default_key_ghost_update Nat Nat 2
      (⟨[⟨1, 10, true⟩, defaultPair Nat Nat, defaultPair Nat Nat,
         defaultPair Nat Nat]⟩ : MyHashMap Nat Nat)
      99 ⟨1, 10, true⟩ 0 1 (by decide) (by decide) (by decide) (by decide)
      (by decide) (by decide) (by decide)
  refine ⟨h.1.trans (by decide), ?_⟩
  have h2 := h.2 2 (by decide)
  exact (by decide :
    (⟨[⟨1, 10, true⟩, ⟨0, 99, false⟩, defaultPair Nat Nat,
       defaultPair Nat Nat]⟩ : MyHashMap Nat Nat) =
      ⟨[⟨1, 10, true⟩, defaultPair Nat Nat, defaultPair Nat Nat,
        defaultPair Nat Nat].set 1 ⟨0, 99, false⟩⟩) ▸ h2

/-- Folding the re-insertion step over a `none` accumulator stays
`none`. -/
theorem foldl_reinsert_none (fuel : Nat) (ps : List (Pair K V)) :
    List.foldl
        (fun acc q => acc.bind fun mm =>
          (MyHashMap.insertGo fuel mm q.key q.value none).map Prod.fst)
        none ps = none := by
  induction ps with
  | nil => rfl
  | cons q ps ih => simpa only [List.foldl_cons, Option.none_bind] using ih

/-- If every single re-insertion multiplies the bucket length by a power
of two, then so does the whole re-insertion fold of
`increase_capacity`. -/
theorem reinsert_fold_pow (fuel : Nat)
    (ih : ∀ (m : MyHashMap K V) (k : K) (v : V) (pr : Option (Nat × Nat))
      (m' : MyHashMap K V) (r : Option V),
      MyHashMap.insertGo fuel m k v pr = some (m', r) →
      ∃ j, m'.bucket.length = m.bucket.length * 2 ^ j) :
    ∀ (ps : List (Pair K V)) (m0 mf : MyHashMap K V),
      List.foldl
          (fun acc q => acc.bind fun mm =>
            (MyHashMap.insertGo fuel mm q.key q.value none).map Prod.fst)
          (some m0) ps = some mf →
      ∃ j, mf.bucket.length = m0.bucket.length * 2 ^ j := by
  intro ps
  induction ps with
  | nil =>
    intro m0 mf h
    simp only [List.foldl_nil, Option.some.injEq] at h
    exact ⟨0, by rw [← h, pow_zero, Nat.mul_one]⟩
  | cons q ps ihp =>
    intro m0 mf h
    simp only [List.foldl_cons, Option.some_bind] at h
    rcases hstep : MyHashMap.insertGo fuel m0 q.key q.value none with _ | ⟨m1, r1⟩
    · rw [hstep] at h
      simp only [Option.map_none', foldl_reinsert_none] at h
      exact absurd h (by simp)
    · rw [hstep] at h
      simp only [Option.map_some'] at h
      obtain ⟨j1, hj1⟩ := ihp m1 mf h
      obtain ⟨j0, hj0⟩ := ih m0 q.key q.value none m1 r1 hstep
      exact ⟨j0 + j1, by rw [hj1, hj0, pow_add, Nat.mul_assoc]⟩

/-- Whenever `insertGo` completes, the final bucket length is the
initial one times a power of two: the only way the bucket changes size
is through the doubling rebuild of `increase_capacity`. -/
theorem insertGo_length_pow :
    ∀ (fuel : Nat) (m : MyHashMap K V) (k : K) (v : V)
      (pr : Option (Nat × Nat)) (m' : MyHashMap K V) (r : Option V),
      MyHashMap.insertGo fuel m k v pr = some (m', r) →
      ∃ j, m'.bucket.length = m.bucket.length * 2 ^ j := by
  intro fuel
  induction fuel with
  | zero =>
    intro m k v pr m' r h
    exact absurd h (by simp [MyHashMap.insertGo])
  | succ f ih =>
    intro m k v pr m' r h
    match pr with
    | none =>
      rw [MyHashMap.insertGo] at h
      split at h
      · exact absurd h (by simp)
      · split at h
        · simp only [Option.some.injEq, Prod.mk.injEq] at h
          exact ⟨0, by rw [← h.1, pow_zero, Nat.mul_one]; simp⟩
        · exact ih m k v _ m' r h
    | some (start, index) =>
      rw [MyHashMap.insertGo] at h
      split at h
      · exact absurd h (by simp)
      · split at h
        · simp only [Option.some.injEq, Prod.mk.injEq] at h
          exact ⟨0, by rw [← h.1, pow_zero, Nat.mul_one]; simp⟩
        · split at h
          · simp only [Option.some.injEq, Prod.mk.injEq] at h
            exact ⟨0, by rw [← h.1, pow_zero, Nat.mul_one]; simp⟩
          · split at h
            · split at h
              · exact absurd h (by simp)
              · rename_i mg hfold
                obtain ⟨j1, hj1⟩ := ih mg k v _ m' r h
                obtain ⟨j0, hj0⟩ := reinsert_fold_pow f ih m.bucket _ mg hfold
                refine ⟨j0 + j1 + 1, ?_⟩
                rw [hj1, hj0]
                simp only [MyHashMap.with_capacity, List.length_replicate]
                ring
            · exact ih m k v _ m' r h

/-- If the probe loop, `d + 1` steps ahead of `index`, will meet an
unoccupied slot, and none of those steps returns to `start`, then the
loop terminates at or before that slot without ever growing the bucket:
the final bucket length equals the initial one.  (Before growth can
trigger, the scan would have to come back to `start`.) -/
theorem insertGo_no_growth_of_reach_empty :
    ∀ (d fuel : Nat) (m : MyHashMap K V) (k : K) (v : V)
      (start index e : Nat) (pe : Pair K V) (m' : MyHashMap K V)
      (r : Option V),
      m.bucket[e]? = some pe → pe.is_occupied = false →
      (index + (d + 1)) % m.bucket.length = e →
      (∀ t, 1 ≤ t → t ≤ d + 1 → (index + t) % m.bucket.length ≠ start) →
      MyHashMap.insertGo fuel m k v (some (start, index)) = some (m', r) →
      m'.bucket.length = m.bucket.length := by
  intro d
  induction d with
  | zero =>
    intro fuel m k v start index e pe m' r he hocc hreach hnostart h
    match fuel with
    | 0 => exact absurd h (by simp [MyHashMap.insertGo])
    | f + 1 =>
      rw [MyHashMap.insertGo] at h
      rw [Nat.zero_add] at hreach
      split at h
      · exact absurd h (by simp)
      · rename_i p hp
        rw [hreach, he] at hp
        cases hp
        split at h
        · simp only [Option.some.injEq, Prod.mk.injEq] at h
          rw [← h.1]
          simp
        · simp only [Option.some.injEq, Prod.mk.injEq] at h
          rw [← h.1]
          simp
  | succ d ihd =>
    intro fuel m k v start index e pe m' r he hocc hreach hnostart h
    match fuel with
    | 0 => exact absurd h (by simp [MyHashMap.insertGo])
    | f + 1 =>
      rw [MyHashMap.insertGo] at h
      split at h
      · exact absurd h (by simp)
      · rename_i p hp
        split at h
        · simp only [Option.some.injEq, Prod.mk.injEq] at h
          rw [← h.1]
          simp
        · split at h
          · simp only [Option.some.injEq, Prod.mk.injEq] at h
            rw [← h.1]
            simp
          · split at h
            · rename_i hstart
              exact absurd hstart (hnostart 1 (by omega) (by omega))
            · refine ihd f m k v start ((index + 1) % m.bucket.length) e pe
                m' r he hocc ?_ ?_ h
              · rw [Nat.mod_add_mod]
                have harith : index + 1 + (d + 1) = index + (d + 1 + 1) := by
                  omega
                rw [harith]
                exact hreach
              · intro t h1 h2
                rw [Nat.mod_add_mod]
                have harith : index + 1 + t = index + (t + 1) := by omega
                rw [harith]
                exact hnostart (t + 1) (by omega) (by omega)

/-- C9: over any operations on a constructed table the capacity
(`bucket` length) never shrinks and only ever changes by doubling:
(1) whenever `insert` completes, the new length is the old one times a
power of two (so it never shrinks); (2) if some slot is unoccupied —
i.e. the probe cannot complete a full cycle — `insert` keeps the length
unchanged, so capacity changes only in response to a fully-cycled probe;
(3) a successful `remove` keeps the length; (4) `extend`
(`reserve_exact`) leaves the table — in particular its length —
untouched.  (`get` takes `&self` and returns only an `Option` of the
value, so it cannot change the capacity at all.) -/
theorem c9_capacity_monotonicity :
    (∀ (fuel : Nat) (m : MyHashMap K V) (k : K) (v : V)
        (m' : MyHashMap K V) (r : Option V),
        MyHashMap.insert fuel m k v = some (m', r) →
        m.bucket.length ≤ m'.bucket.length ∧
        ∃ j, m'.bucket.length = m.bucket.length * 2 ^ j) ∧
    (∀ (fuel : Nat) (m : MyHashMap K V) (k : K) (v : V)
        (m' : MyHashMap K V) (r : Option V) (e : Nat) (pe : Pair K V),
        m.bucket[e]? = some pe → pe.is_occupied = false →
        MyHashMap.insert fuel m k v = some (m', r) →
        m'.bucket.length = m.bucket.length) ∧
    (∀ (m : MyHashMap K V) (k : K) (p : Pair K V) (m' : MyHashMap K V),
        MyHashMap.remove m k = RemoveResult.ok p m' →
        m'.bucket.length = m.bucket.length) ∧
    (∀ (m : MyHashMap K V) (n : Nat), MyHashMap.extend m n = m) := by
  refine ⟨?_, ?_, ?_, ?_⟩
  · intro fuel m k v m' r h
    obtain ⟨j, hj⟩ := insertGo_length_pow fuel m k v none m' r h
    refine ⟨?_, j, hj⟩
    rw [hj]
    calc m.bucket.length = m.bucket.length * 1 := (Nat.mul_one _).symm
      _ ≤ m.bucket.length * 2 ^ j :=
        Nat.mul_le_mul_left _ (Nat.one_le_pow j 2 (by norm_num))
  · intro fuel m k v m' r e pe he hocc h
    match fuel with
    | 0 => exact absurd h (by simp [MyHashMap.insert, MyHashMap.insertGo])
    | f + 1 =>
      rw [MyHashMap.insert, MyHashMap.insertGo] at h
      have hlt : e < m.bucket.length := (List.getElem?_eq_some_iff.mp he).1
      have hpos : 0 < m.bucket.length := by omega
      split at h
      · exact absurd h (by simp)
      · rename_i ph hph
        split at h
        · simp only [Option.some.injEq, Prod.mk.injEq] at h
          rw [← h.1]
          simp
        · rename_i hpho
          set home := HashIt.hash k % m.bucket.length with hhome
          have hhlt : home < m.bucket.length := Nat.mod_lt _ hpos
          have hne : e ≠ home := by
            intro hcon
            rw [hcon] at he
            rw [hph] at he
            have : pe = ph := by injection he with h1; exact h1.symm
            rw [this] at hocc
            exact hpho hocc
          have hD : ∃ d : Nat,
              (home + (d + 1)) % m.bucket.length = e ∧
              d + 1 ≤ m.bucket.length - 1 := by
            rcases Nat.lt_or_ge home e with hc | hc
            · refine ⟨e - home - 1, ?_, by omega⟩
              have harith : home + (e - home - 1 + 1) = e := by omega
              rw [harith, Nat.mod_eq_of_lt hlt]
            · have hc2 : e < home := by omega
              refine ⟨e + m.bucket.length - home - 1, ?_, by omega⟩
              have harith :
                  home + (e + m.bucket.length - home - 1 + 1) =
                    e + m.bucket.length := by omega
              rw [harith, Nat.add_mod_right, Nat.mod_eq_of_lt hlt]
          obtain ⟨d, hreach, hdlen⟩ := hD
          have hnostart : ∀ t, 1 ≤ t → t ≤ d + 1 →
              (home + t) % m.bucket.length ≠ home := by
            intro t ht1 ht2 hcon
            have h0 : (home + t) % m.bucket.length =
                (home + 0) % m.bucket.length := by
              rw [Nat.add_zero, Nat.mod_eq_of_lt hhlt]
              exact hcon
            have h1 : t % m.bucket.length = 0 % m.bucket.length :=
              Nat.ModEq.add_left_cancel' home h0
            have h2 : m.bucket.length ∣ t := Nat.modEq_zero_iff_dvd.mp h1
            have h3 : m.bucket.length ≤ t := Nat.le_of_dvd (by omega) h2
            omega
          exact insertGo_no_growth_of_reach_empty d f m k v home home e pe
            m' r he hocc hreach hnostart h
  · intro m k p m' h
    rw [MyHashMap.remove] at h
    split at h
    · exact absurd h (by simp)
    · rename_i q hq
      split at h
      · injection h with h1 h2
        rw [← h2]
        simp
      · exact absurd h (by simp)
  · intro m n
    rfl

/-- Witness for C9: the doubling conjunct applied to the growth step of
the C7 trace — inserting key 3 into the full 2-slot table yields a
4-slot table, and `4 = 2 * 2 ^ 1`. -/
theorem c9_capacity_monotonicity_witness :
    (⟨[⟨1, 10, true⟩, ⟨2, 20, true⟩]⟩ :
        MyHashMap Nat Nat).bucket.length ≤
      (⟨[⟨1, 10, true⟩, ⟨2, 20, true⟩, ⟨3, 30, true⟩,
         defaultPair Nat Nat]⟩ : MyHashMap Nat Nat).bucket.length ∧
    ∃ j,
      (⟨[⟨1, 10, true⟩, ⟨2, 20, true⟩, ⟨3, 30, true⟩,
         defaultPair Nat Nat]⟩ : MyHashMap Nat Nat).bucket.length =
        (⟨[⟨1, 10, true⟩, ⟨2, 20, true⟩]⟩ :
            MyHashMap Nat Nat).bucket.length * 2 ^ j :=
  (@c9_capacity_monotonicity Nat Nat _ _ _ _).1 20
    ⟨[⟨1, 10, true⟩, ⟨2, 20, true⟩]⟩ 3 30
    ⟨[⟨1, 10, true⟩, ⟨2, 20, true⟩, ⟨3, 30, true⟩, defaultPair Nat Nat]⟩
    none (by decide)

